import Mathlib

/-!
Verification of the Markdown renderer in `script.js` (functions `escapeHtml`,
`parseMarkdown`, `parseTable`, `parseInlineMarkdown`).  The JavaScript code is
shallowly embedded: strings are `List Char`, each regex-`replace` stage is a
specialized executable scanner mirroring the JavaScript regex engine's
behaviour (leftmost match, greedy/lazy quantifiers, lookarounds, `g`-flag
resumption after each match), and `String.prototype.replace` with a *string*
replacement implements the `$&`, `$'`, backtick-dollar and `$$` substitution
patterns of ECMAScript `GetSubstitution` (the sentinel-restoration regexes
contain no capture groups, so `$1` etc. stay literal).
-/

set_option maxRecDepth 100000

set_option maxHeartbeats 4000000

namespace MdRender

/-- JavaScript `\s` (ASCII part, which is all the inputs here use). -/
def isWs (c : Char) : Bool :=
  c = ' ' || c = '\t' || c = '\n' || c = '\r' || c = '\x0b' || c = '\x0c'

def isDigitCh (c : Char) : Bool := '0' ≤ c && c ≤ '9'

/-- character class `[a-zA-Z0-9_+\-.#]` of the fenced-code-block regex. -/
def isLangChar (c : Char) : Bool :=
  c.isAlpha || isDigitCh c || c = '_' || c = '+' || c = '-' || c = '.' || c = '#'

/-- the apostrophe character, written by code to avoid quoting issues. -/
def apos : Char := Char.ofNat 39

/-- JavaScript `String.prototype.toLowerCase` restricted to ASCII. -/
def lowerStr (s : List Char) : List Char := s.map Char.toLower

/-- `text.trim()` : strip leading and trailing whitespace. -/
def trimWs (s : List Char) : List Char :=
  ((s.dropWhile isWs).reverse.dropWhile isWs).reverse

/-- `code.replace(/^\n+|\n+$/g, '')` : strip leading and trailing newlines. -/
def trimNl (s : List Char) : List Char :=
  ((s.dropWhile (· = '\n')).reverse.dropWhile (· = '\n')).reverse

/-- Decimal digits of a natural number, as JavaScript `${i}` prints it. -/
def natCharsGo : Nat → Nat → List Char
  | 0, _ => []
  | f + 1, n =>
    if n < 10 then [Nat.digitChar n]
    else natCharsGo f (n / 10) ++ [Nat.digitChar (n % 10)]

def natChars (n : Nat) : List Char := natCharsGo (n + 1) n

/-- Value of a digit string (JavaScript `parseInt` on a `\d+` match). -/
def natVal (s : List Char) : Nat :=
  s.foldl (fun a c => a * 10 + (c.toNat - 48)) 0

/-- Does `s` contain `pat` as a (contiguous) substring? -/
def containsSub (pat : List Char) : List Char → Bool
  | [] => pat.isEmpty
  | c :: rest => pat.isPrefixOf (c :: rest) || containsSub pat rest

/-- Number of (possibly overlapping) occurrences of `pat` in `s`. -/
def countSub (pat : List Char) : List Char → Nat
  | [] => if pat.isEmpty then 1 else 0
  | c :: rest => (if pat.isPrefixOf (c :: rest) then 1 else 0) + countSub pat rest

/-- `escapeHtml` from script.js: five sequential global character
replacements, ampersand first. -/
def replChar (c : Char) (rep : List Char) : List Char → List Char
  | [] => []
  | d :: rest => (if d = c then rep else [d]) ++ replChar c rep rest

def escapeHtmlL (s : List Char) : List Char :=
  replChar apos ("&#039;".toList)
    (replChar '"' ("&quot;".toList)
      (replChar '>' ("&gt;".toList)
        (replChar '<' ("&lt;".toList)
          (replChar '&' ("&amp;".toList) s))))

def escapeHtml (s : String) : String := (escapeHtmlL s.toList).asString

/-- the backtick character. -/
def bt : Char := Char.ofNat 96

/-- three backticks, the code-fence delimiter. -/
def ticks3 : List Char := [bt, bt, bt]

/-- an extracted fenced code block (`codeBlocks` array entries). -/
structure CodeBlock where
  language : List Char
  code : List Char
deriving DecidableEq, Repr

/-- the `knownLanguages` allow-list from script.js (duplicates kept). -/
def knownLanguages : List String := [
  "javascript", "js", "typescript", "ts", "python", "py", "java", "c", "cpp",
  "csharp", "cs", "php", "html", "css", "json", "xml", "sql", "bash", "sh",
  "yaml", "yml", "markdown", "md", "ruby", "rb", "go", "rust", "rs", "swift",
  "kotlin", "kt", "scala", "perl", "pl", "lua", "r", "matlab", "jsx", "tsx",
  "dart", "erlang", "elixir", "haskell", "clojure", "fsharp", "powershell",
  "shell", "dockerfile", "makefile", "cmake", "nginx", "apache", "diff",
  "ini", "toml", "graphql", "docker", "sql", "vim", "regex", "apache", "nginx",
  "armasm", "avrasm", "actionscript", "ada", "apache", "applescript", "arduino",
  "coffeescript", "d", "delphi", "oxygene", "elixir", "elm", "erlang", "fsharp",
  "gcode", "golang", "groovy", "haml", "handlebars", "haskell", "haxe", "java",
  "javascript", "json", "julia", "kotlin", "latex", "less", "lisp", "livescript",
  "lua", "makefile", "markdown", "matlab", "mathematica", "nginx", "objectivec",
  "ocaml", "perl", "php", "powershell", "python", "r", "ruby", "rust", "scala",
  "scheme", "scss", "shell", "sql", "swift", "tcl", "typescript", "verilog",
  "vhdl", "xml", "yaml", "text", "txt", "plain"]

def langKnown (lang : List Char) : Bool :=
  knownLanguages.any (fun k => k.toList = lowerStr lang)

/-- sentinel `__CODEBLOCK_<i>__`. -/
def phCB (n : Nat) : List Char := "__CODEBLOCK_".toList ++ natChars n ++ "__".toList

/-- sentinel `__INLINECODE_<i>__`. -/
def phIC (n : Nat) : List Char := "__INLINECODE_".toList ++ natChars n ++ "__".toList

/-- sentinel `__TABLE_<i>__`. -/
def phTB (n : Nat) : List Char := "__TABLE_".toList ++ natChars n ++ "__".toList

/-- Index of the first occurrence of three consecutive backticks. -/
def findTicks3 : List Char → Option Nat
  | c1 :: c2 :: c3 :: rest =>
    if c1 = bt && c2 = bt && c3 = bt then some 0
    else (findTicks3 (c2 :: c3 :: rest)).map (· + 1)
  | _ => none

/-- Try the STEP 1a regex `(\x60\x60\x60)([a-zA-Z0-9_+\-.#]+)\s*\n([\s\S]*?)\n?(\x60\x60\x60)`
at the head of `s`.  Greedy `\s*` backtracks so that the required `\n` is the
last newline of the whitespace run after the language tag; the lazy body ends
at the first following triple backtick, with an immediately preceding newline
consumed by `\n?`.  Returns (consumed length, language tag, body). -/
def tryFence1a (s : List Char) : Option (Nat × List Char × List Char) :=
  if ticks3.isPrefixOf s then
    let rest := s.drop 3
    let lang := rest.takeWhile isLangChar
    if lang.isEmpty then none
    else
      let r1 := rest.drop lang.length
      let w := r1.takeWhile isWs
      let r2 := r1.drop w.length
      let t := (w.reverse.takeWhile (· ≠ '\n')).reverse
      if w.length = t.length then none
      else
        match findTicks3 (t ++ r2) with
        | none => none
        | some j =>
          let contentAll := (t ++ r2).take j
          let code := if contentAll.getLast? = some '\n' then contentAll.dropLast else contentAll
          some (3 + lang.length + (w.length - t.length) + j + 3, lang, code)
  else none

/-- STEP 1a of parseMarkdown: extract fenced blocks with a declared language;
unknown-language matches are emitted verbatim (the callback returns `match`,
and scanning resumes after it). -/
def scanFence1a : Nat → List Char → List CodeBlock → List Char × List CodeBlock
  | 0, s, bs => (s, bs)
  | fuel + 1, s, bs =>
    match s with
    | [] => ([], bs)
    | c :: rest =>
      match tryFence1a s with
      | some (n, lang, code) =>
        if langKnown lang then
          let res := scanFence1a fuel (s.drop n) (bs ++ [⟨lowerStr lang, trimNl code⟩])
          (phCB bs.length ++ res.1, res.2)
        else
          let res := scanFence1a fuel (s.drop n) bs
          (s.take n ++ res.1, res.2)
      | none =>
        let res := scanFence1a fuel rest bs
        (c :: res.1, res.2)

/-- Try the STEP 1b regex `(\x60\x60\x60)\s*\n?([\s\S]*?)\n?(\x60\x60\x60)` at the
head of `s`: greedy `\s*` takes the whole whitespace run (so the optional
newline matches nothing), the lazy body ends at the first following triple
backtick. -/
def tryFence1b (s : List Char) : Option (Nat × List Char) :=
  if ticks3.isPrefixOf s then
    let rest := s.drop 3
    let w := rest.takeWhile isWs
    let r1 := rest.drop w.length
    match findTicks3 r1 with
    | none => none
    | some j =>
      let contentAll := r1.take j
      let code := if contentAll.getLast? = some '\n' then contentAll.dropLast else contentAll
      some (3 + w.length + j + 3, code)
  else none

/-- STEP 1b of parseMarkdown: extract remaining fenced blocks as `plaintext`. -/
def scanFence1b : Nat → List Char → List CodeBlock → List Char × List CodeBlock
  | 0, s, bs => (s, bs)
  | fuel + 1, s, bs =>
    match s with
    | [] => ([], bs)
    | c :: rest =>
      match tryFence1b s with
      | some (n, code) =>
        let res := scanFence1b fuel (s.drop n) (bs ++ [⟨"plaintext".toList, trimNl code⟩])
        (phCB bs.length ++ res.1, res.2)
      | none =>
        let res := scanFence1b fuel rest bs
        (c :: res.1, res.2)

/-- STEP 1c of parseMarkdown: the regex `(?<!\x60)\x60([^\x60\n]+?)\x60(?!\x60)`,
first inline-code pass.  `prevBt` tracks whether the character preceding the
current position in the subject is a backtick (for the lookbehind). -/
def scanInline1 : Nat → Bool → List Char → List (List Char) → List Char × List (List Char)
  | 0, _, s, cs => (s, cs)
  | fuel + 1, prevBt, s, cs =>
    match s with
    | [] => ([], cs)
    | c :: rest =>
      if c = bt then
        if prevBt then
          let res := scanInline1 fuel true rest cs
          (c :: res.1, res.2)
        else
          let content := rest.takeWhile (fun d => d ≠ bt && d ≠ '\n')
          let r2 := rest.drop content.length
          if r2.headD ' ' = bt && !content.isEmpty && (r2.drop 1).headD ' ' ≠ bt then
            let res := scanInline1 fuel true (r2.drop 1) (cs ++ [content])
            (phIC cs.length ++ res.1, res.2)
          else
            let res := scanInline1 fuel true rest cs
            (c :: res.1, res.2)
      else
        let res := scanInline1 fuel false rest cs
        (c :: res.1, res.2)

/-- STEP 3 of parseMarkdown: the regex `(\x60+)([^\x60]+?)\1(?!\x60)`, second
inline-code pass; only odd-length backtick runs are extracted, even-length
matches are left untouched (scanning resumes after them either way). -/
def scanInline2 : Nat → List Char → List (List Char) → List Char × List (List Char)
  | 0, s, cs => (s, cs)
  | fuel + 1, s, cs =>
    match s with
    | [] => ([], cs)
    | c :: rest =>
      if c = bt then
        let run := s.takeWhile (· = bt)
        let a1 := s.drop run.length
        let content := a1.takeWhile (· ≠ bt)
        let a2 := a1.drop content.length
        let run2 := a2.takeWhile (· = bt)
        let a3 := a2.drop run2.length
        if content.isEmpty || run2.length ≠ run.length then
          let res := scanInline2 fuel rest cs
          (c :: res.1, res.2)
        else if run.length % 2 = 1 then
          let res := scanInline2 fuel a3 (cs ++ [content])
          (phIC cs.length ++ res.1, res.2)
        else
          let res := scanInline2 fuel a3 cs
          ((run ++ content ++ run2) ++ res.1, res.2)
      else
        let res := scanInline2 fuel rest cs
        (c :: res.1, res.2)

/-- One `^\s*\|.*\|\s*$\n?` unit of the STEP 2 table regex, tried at a line
start.  `\s*` may cross newlines; the closing `|` is the last
non-whitespace character of its line; `\s*$\n?` consumes trailing
whitespace up to and including the last newline of the following
whitespace run (or to the end of input).  Returns consumed length. -/
def tableUnit (s : List Char) : Option Nat :=
  let w := s.takeWhile isWs
  let r := s.drop w.length
  match r with
  | '|' :: r1 =>
    let line := r1.takeWhile (· ≠ '\n')
    let core := (line.reverse.dropWhile isWs).reverse
    if core.getLast? = some '|' then
      let pos := w.length + 1 + core.length
      let tail := s.drop pos
      let m := tail.takeWhile isWs
      let r2 := tail.drop m.length
      if r2.isEmpty then some s.length
      else
        let t := (m.reverse.takeWhile (· ≠ '\n')).reverse
        if m.length = t.length then none
        else some (pos + (m.length - t.length))
    else none
  | _ => none

/-- Length of the maximal `(^\s*\|.*\|\s*$\n?)+` run starting at a line
start (0 if no unit matches). -/
def tableRunGo : Nat → List Char → Nat → Nat
  | 0, _, acc => acc
  | fuel + 1, s, acc =>
    match tableUnit s with
    | some n => if n = 0 then acc else tableRunGo fuel (s.drop n) (acc + n)
    | none => acc

def tableRun (s : List Char) : Option Nat :=
  let n := tableRunGo (s.length + 1) s 0
  if n = 0 then none else some n

/-- The separator-row test `^\s*\|[\s\-:|]+\|\s*$` (equivalently parseTable's
`^\|[\s\-:|]+\|\s*$`), applied to an already-trimmed line. -/
def isSepLine (l : List Char) : Bool :=
  match l with
  | '|' :: rest =>
    if rest.getLast? = some '|' then
      rest.length ≥ 2 && rest.dropLast.all (fun c => isWs c || c = '-' || c = ':' || c = '|')
    else false
  | _ => false

/-- STEP 2 of parseMarkdown: table extraction.  A matched run is kept
verbatim when it has fewer than two nonblank lines or no separator line;
otherwise its nonblank lines are stored and a `__TABLE_i__` sentinel
substituted. -/
def scanTables : Nat → Bool → List Char → List (List (List Char)) →
    List Char × List (List (List Char))
  | 0, _, s, ts => (s, ts)
  | fuel + 1, atStart, s, ts =>
    match s with
    | [] => ([], ts)
    | c :: rest =>
      match (if atStart then tableRun s else none) with
      | some n =>
        let mtext := s.take n
        let lines := ((trimWs mtext).splitOn '\n').filter (fun l => !(trimWs l).isEmpty)
        let nextStart := mtext.getLast? = some '\n'
        if lines.length < 2 || !(lines.any (fun l => isSepLine (trimWs l))) then
          let res := scanTables fuel nextStart (s.drop n) ts
          (mtext ++ res.1, res.2)
        else
          let res := scanTables fuel nextStart (s.drop n) (ts ++ [lines])
          (phTB ts.length ++ res.1, res.2)
      | none =>
        let res := scanTables fuel (c = '\n') rest ts
        (c :: res.1, res.2)

/-- Match `\s+(.+)$` (headers and list items) at the start of `r`: greedy
`\s+` takes the whole whitespace run when non-newline text follows on that
line; at end of input it backtracks so that the content is the last
non-newline whitespace character of the run (the `$` then holds at the end
or before the following newline).  Returns (consumed, captured text). -/
def spacePlusContent (r : List Char) : Option (Nat × List Char) :=
  let w := r.takeWhile isWs
  if w.isEmpty then none
  else
    let r2 := r.drop w.length
    if r2.isEmpty then
      let core := (w.reverse.dropWhile (· = '\n')).reverse
      match core.getLast? with
      | some ch => if core.length ≥ 2 then some (core.length, [ch]) else none
      | none => none
    else
      let lineRest := r2.takeWhile (· ≠ '\n')
      if lineRest.isEmpty then none
      else some (w.length + lineRest.length, lineRest)

def hashes (k : Nat) : List Char := List.replicate k '#'

/-- One of the header stages `^#{k}\s+(.+)$` (gm) of STEP 5. -/
def scanHeader (k : Nat) (tagO tagC : List Char) : Nat → Bool → List Char → List Char
  | 0, _, s => s
  | fuel + 1, atStart, s =>
    match s with
    | [] => []
    | c :: rest =>
      if atStart && (hashes k).isPrefixOf s then
        match spacePlusContent (s.drop k) with
        | some (n, content) =>
          tagO ++ content ++ tagC ++ scanHeader k tagO tagC fuel false (s.drop (k + n))
        | none => c :: scanHeader k tagO tagC fuel (c = '\n') rest
      else c :: scanHeader k tagO tagC fuel (c = '\n') rest

/-- Try `^\s*(-{3,}|\*{3,}|_{3,})\s*$` at a line start; the trailing `\s*`
stops just before the last newline of the whitespace run after the rule
characters (or consumes it all at end of input). -/
def tryHr (s : List Char) : Option Nat :=
  let a := s.takeWhile isWs
  let r := s.drop a.length
  match r with
  | ch :: _ =>
    if ch = '-' || ch = '*' || ch = '_' then
      let run := r.takeWhile (· = ch)
      if run.length < 3 then none
      else
        let tail := r.drop run.length
        let b := tail.takeWhile isWs
        let r2 := tail.drop b.length
        if r2.isEmpty then some s.length
        else
          let t := (b.reverse.takeWhile (· ≠ '\n')).reverse
          if b.length = t.length then none
          else some (a.length + run.length + (b.length - t.length - 1))
    else none
  | [] => none

/-- Horizontal-rule stage of STEP 5. -/
def scanHr : Nat → Bool → List Char → List Char
  | 0, _, s => s
  | fuel + 1, atStart, s =>
    match s with
    | [] => []
    | c :: rest =>
      match (if atStart then tryHr s else none) with
      | some n => "<hr>".toList ++ scanHr fuel false (s.drop n)
      | none => c :: scanHr fuel (c = '\n') rest

/-- Blockquote stage `^&gt;\s?(.+)$` (gm) of STEP 5. -/
def scanBq : Nat → Bool → List Char → List Char
  | 0, _, s => s
  | fuel + 1, atStart, s =>
    match s with
    | [] => []
    | c :: rest =>
      if atStart && "&gt;".toList.isPrefixOf s then
        let r := s.drop 4
        match r with
        | ch :: r2 =>
          if isWs ch then
            let content := r2.takeWhile (· ≠ '\n')
            if !content.isEmpty then
              "<blockquote>".toList ++ content ++ "</blockquote>".toList ++
                scanBq fuel false (r2.drop content.length)
            else if ch ≠ '\n' then
              "<blockquote>".toList ++ [ch] ++ "</blockquote>".toList ++
                scanBq fuel false r2
            else c :: scanBq fuel false rest
          else
            let content := r.takeWhile (· ≠ '\n')
            "<blockquote>".toList ++ content ++ "</blockquote>".toList ++
              scanBq fuel false (r.drop content.length)
        | [] => c :: scanBq fuel false rest
      else c :: scanBq fuel (c = '\n') rest

/-- Unordered-list stage `^[\-+*]\s+(.+)$` (gm) of STEP 5. -/
def scanUl : Nat → Bool → List Char → List Char
  | 0, _, s => s
  | fuel + 1, atStart, s =>
    match s with
    | [] => []
    | c :: rest =>
      if atStart && (c = '-' || c = '+' || c = '*') then
        match spacePlusContent rest with
        | some (n, content) =>
          "<li>".toList ++ content ++ "</li>".toList ++ scanUl fuel false (rest.drop n)
        | none => c :: scanUl fuel false rest
      else c :: scanUl fuel (c = '\n') rest

/-- Ordered-list stage `^\d+\.\s+(.+)$` (gm) of STEP 5. -/
def scanOl : Nat → Bool → List Char → List Char
  | 0, _, s => s
  | fuel + 1, atStart, s =>
    match s with
    | [] => []
    | c :: rest =>
      if atStart && isDigitCh c then
        let d := s.takeWhile isDigitCh
        match s.drop d.length with
        | '.' :: r =>
          match spacePlusContent r with
          | some (n, content) =>
            "<li>".toList ++ content ++ "</li>".toList ++ scanOl fuel false (r.drop n)
          | none => c :: scanOl fuel false rest
        | _ => c :: scanOl fuel false rest
      else c :: scanOl fuel (c = '\n') rest

/-- Index of the last occurrence of `pat` in `s`. -/
def findLastSub (pat : List Char) : List Char → Option Nat
  | [] => none
  | c :: rest =>
    match findLastSub pat rest with
    | some i => some (i + 1)
    | none => if pat.isPrefixOf (c :: rest) then some 0 else none

/-- One `<li>.*<\/li>\n?` unit of the list-wrapping regex (no `m` flag, so
`.` stays within the line and greedy `.*` puts the closing tag at the last
`</li>` of the line). -/
def liUnit (s : List Char) : Option Nat :=
  if "<li>".toList.isPrefixOf s then
    let line := (s.drop 4).takeWhile (· ≠ '\n')
    match findLastSub "</li>".toList line with
    | some i =>
      let consumed := 4 + i + 5
      if (s.drop consumed).headD ' ' = '\n' then some (consumed + 1) else some consumed
    | none => none
  else none

def liRunGo : Nat → List Char → Nat → Nat
  | 0, _, acc => acc
  | fuel + 1, s, acc =>
    match liUnit s with
    | some n => if n = 0 then acc else liRunGo fuel (s.drop n) (acc + n)
    | none => acc

/-- The `/\d+\.\s/` test used to choose between the two list containers. -/
def containsDigitDotWs : List Char → Bool
  | [] => false
  | c :: rest =>
    (isDigitCh c &&
      (match (c :: rest).drop ((c :: rest).takeWhile isDigitCh).length with
       | '.' :: w :: _ => isWs w
       | _ => false)) || containsDigitDotWs rest

/-- List-wrapping stage of STEP 5: each maximal `(<li>.*<\/li>\n?)+` run is
wrapped in `<ol>` when the (already converted) run text still matches
`\d+\.\s`, else in `<ul>`. -/
def scanLiWrap : Nat → List Char → List Char
  | 0, s => s
  | fuel + 1, s =>
    match s with
    | [] => []
    | c :: rest =>
      if "<li>".toList.isPrefixOf s then
        let n := liRunGo (s.length + 1) s 0
        if n = 0 then c :: scanLiWrap fuel rest
        else
          let mtext := s.take n
          if containsDigitDotWs mtext then
            "<ol>".toList ++ mtext ++ "</ol>".toList ++ scanLiWrap fuel (s.drop n)
          else
            "<ul>".toList ++ mtext ++ "</ul>".toList ++ scanLiWrap fuel (s.drop n)
      else c :: scanLiWrap fuel rest

/-- Bold stage `\*\*([^*]+?)\*\*` of STEP 5. -/
def scanBold : Nat → List Char → List Char
  | 0, s => s
  | fuel + 1, s =>
    match s with
    | [] => []
    | c :: rest =>
      if c = '*' && rest.headD ' ' = '*' then
        let r := rest.drop 1
        let content := r.takeWhile (· ≠ '*')
        let r2 := r.drop content.length
        if !content.isEmpty && r2.headD ' ' = '*' && (r2.drop 1).headD ' ' = '*' then
          "<strong>".toList ++ content ++ "</strong>".toList ++ scanBold fuel (r2.drop 2)
        else c :: scanBold fuel rest
      else c :: scanBold fuel rest

/-- Italic stage `(?<!\*)\*([^\*\n]+?)\*(?!\*)` of STEP 5; `prev` tracks
whether the preceding subject character is `*` (for the lookbehind). -/
def scanItStar : Nat → Bool → List Char → List Char
  | 0, _, s => s
  | fuel + 1, prev, s =>
    match s with
    | [] => []
    | c :: rest =>
      if c = '*' then
        if prev then c :: scanItStar fuel true rest
        else
          let content := rest.takeWhile (fun d => d ≠ '*' && d ≠ '\n')
          let r2 := rest.drop content.length
          if !content.isEmpty && r2.headD ' ' = '*' && (r2.drop 1).headD ' ' ≠ '*' then
            "<em>".toList ++ content ++ "</em>".toList ++ scanItStar fuel true (r2.drop 1)
          else c :: scanItStar fuel true rest
      else c :: scanItStar fuel false rest

/-- Italic stage `(?<!_)_([^\_\n]+?)_(?!_)` of STEP 5. -/
def scanItUnd : Nat → Bool → List Char → List Char
  | 0, _, s => s
  | fuel + 1, prev, s =>
    match s with
    | [] => []
    | c :: rest =>
      if c = '_' then
        if prev then c :: scanItUnd fuel true rest
        else
          let content := rest.takeWhile (fun d => d ≠ '_' && d ≠ '\n')
          let r2 := rest.drop content.length
          if !content.isEmpty && r2.headD ' ' = '_' && (r2.drop 1).headD ' ' ≠ '_' then
            "<em>".toList ++ content ++ "</em>".toList ++ scanItUnd fuel true (r2.drop 1)
          else c :: scanItUnd fuel true rest
      else c :: scanItUnd fuel false rest

/-- Strikethrough stage `~~([^~]+?)~~` of STEP 5. -/
def scanStrike : Nat → List Char → List Char
  | 0, s => s
  | fuel + 1, s =>
    match s with
    | [] => []
    | c :: rest =>
      if c = '~' && rest.headD ' ' = '~' then
        let r := rest.drop 1
        let content := r.takeWhile (· ≠ '~')
        let r2 := r.drop content.length
        if !content.isEmpty && r2.headD ' ' = '~' && (r2.drop 1).headD ' ' = '~' then
          "<del>".toList ++ content ++ "</del>".toList ++ scanStrike fuel (r2.drop 2)
        else c :: scanStrike fuel rest
      else c :: scanStrike fuel rest

/-- Link stage `\[([^\]]+)\]\(([^)]+)\)` of STEP 5. -/
def scanLink : Nat → List Char → List Char
  | 0, s => s
  | fuel + 1, s =>
    match s with
    | [] => []
    | c :: rest =>
      if c = '[' then
        let c1 := rest.takeWhile (· ≠ ']')
        let r1 := rest.drop c1.length
        if !c1.isEmpty && r1.headD ' ' = ']' && (r1.drop 1).headD ' ' = '(' then
          let r2 := r1.drop 2
          let c2 := r2.takeWhile (· ≠ ')')
          let r3 := r2.drop c2.length
          if !c2.isEmpty && r3.headD ' ' = ')' then
            "<a href=\"".toList ++ c2 ++ "\" target=\"_blank\" rel=\"noopener noreferrer\">".toList ++
              c1 ++ "</a>".toList ++ scanLink fuel (r3.drop 1)
          else c :: scanLink fuel rest
        else c :: scanLink fuel rest
      else c :: scanLink fuel rest

/-- Image stage `!\[([^\]]*)\]\(([^)]+)\)` of STEP 5 (empty alt allowed). -/
def scanImg : Nat → List Char → List Char
  | 0, s => s
  | fuel + 1, s =>
    match s with
    | [] => []
    | c :: rest =>
      if c = '!' && rest.headD ' ' = '[' then
        let r := rest.drop 1
        let c1 := r.takeWhile (· ≠ ']')
        let r1 := r.drop c1.length
        if r1.headD ' ' = ']' && (r1.drop 1).headD ' ' = '(' then
          let r2 := r1.drop 2
          let c2 := r2.takeWhile (· ≠ ')')
          let r3 := r2.drop c2.length
          if !c2.isEmpty && r3.headD ' ' = ')' then
            "<img src=\"".toList ++ c2 ++ "\" alt=\"".toList ++ c1 ++
              "\" loading=\"lazy\">".toList ++ scanImg fuel (r3.drop 1)
          else c :: scanImg fuel rest
        else c :: scanImg fuel rest
      else c :: scanImg fuel rest

/-- Global replacement of a literal pattern by a literal string. -/
def replaceLit (pat rep : List Char) : Nat → List Char → List Char
  | 0, s => s
  | fuel + 1, s =>
    match s with
    | [] => []
    | c :: rest =>
      if !pat.isEmpty && pat.isPrefixOf s then
        rep ++ replaceLit pat rep fuel (s.drop pat.length)
      else c :: replaceLit pat rep fuel rest

/-- Cleanup `<\/p><p>\s*<p>` → `</p><p>` of STEP 5. -/
def scanPP : Nat → List Char → List Char
  | 0, s => s
  | fuel + 1, s =>
    match s with
    | [] => []
    | c :: rest =>
      if "</p><p>".toList.isPrefixOf s then
        let r := (s.drop 7).dropWhile isWs
        if "<p>".toList.isPrefixOf r then
          "</p><p>".toList ++ scanPP fuel (r.drop 3)
        else c :: scanPP fuel rest
      else c :: scanPP fuel rest

/-- Cleanup `<p>\s*<\/p>` → empty of STEP 5. -/
def scanEmptyP : Nat → List Char → List Char
  | 0, s => s
  | fuel + 1, s =>
    match s with
    | [] => []
    | c :: rest =>
      if "<p>".toList.isPrefixOf s then
        let r := (s.drop 3).dropWhile isWs
        if "</p>".toList.isPrefixOf r then
          scanEmptyP fuel (r.drop 4)
        else c :: scanEmptyP fuel rest
      else c :: scanEmptyP fuel rest

/-- ECMAScript `GetSubstitution` for a *string* replacement under a regex
with no capture groups: `$$`, `$&`, dollar-backtick and dollar-apostrophe
are special, everything else (including `$1` and `$<`) stays literal. -/
def expandRepl (matched pre suf : List Char) : Nat → List Char → List Char
  | 0, r => r
  | fuel + 1, r =>
    match r with
    | [] => []
    | c :: rest =>
      if c = '$' then
        match rest with
        | d :: r2 =>
          if d = '$' then '$' :: expandRepl matched pre suf fuel r2
          else if d = '&' then matched ++ expandRepl matched pre suf fuel r2
          else if d = bt then pre ++ expandRepl matched pre suf fuel r2
          else if d = apos then suf ++ expandRepl matched pre suf fuel r2
          else '$' :: expandRepl matched pre suf fuel rest
        | [] => ['$']
      else c :: expandRepl matched pre suf fuel rest

/-- `subject.replace(new RegExp(pat, 'g'), rep)` where `pat` is a literal
string (the sentinel regexes) and `rep` a replacement string subject to
`GetSubstitution`; dollar-backtick and dollar-apostrophe refer to the
portions of the *original* subject around each match. -/
def replaceDollarGo (subject pat rep : List Char) : Nat → Nat → List Char → List Char
  | 0, _, _ => []
  | fuel + 1, i, s =>
    -- invariant: s = subject.drop i
    match s with
    | [] => []
    | c :: rest =>
      if !pat.isEmpty && pat.isPrefixOf s then
        expandRepl pat (subject.take i) (subject.drop (i + pat.length)) (rep.length + 1) rep ++
          replaceDollarGo subject pat rep fuel (i + pat.length) (s.drop pat.length)
      else c :: replaceDollarGo subject pat rep fuel (i + 1) rest

def replaceDollar (subject pat rep : List Char) : List Char :=
  replaceDollarGo subject pat rep (subject.length + 1) 0 subject

/-- Alignment classification of one separator cell in `parseTable`. -/
def alignOf (cell : List Char) : List Char :=
  let t := trimWs cell
  let lc := t.headD ' ' = ':'
  let rc := t.getLast? = some ':'
  if lc && rc then "center".toList
  else if rc then "right".toList
  else if lc then "left".toList
  else "left".toList

/-- `row.split('|')` followed by the edge-cell filter of `parseTable`
(drop first/last cell only when blank). -/
def rowCells (row : List Char) : List (List Char) :=
  let cells := row.splitOn '|'
  let n := cells.length
  (cells.enum.filter (fun p =>
    !(p.1 = 0 && (trimWs p.2).isEmpty) && !(p.1 = n - 1 && (trimWs p.2).isEmpty))).map (·.2)

/-- `__INLINECODE_(\d+)__` handling of `parseInlineMarkdown` (function
callback: out-of-range indices reproduce the matched text). -/
def scanICPh (codes : List (List Char)) : Nat → List Char → List Char
  | 0, s => s
  | fuel + 1, s =>
    match s with
    | [] => []
    | c :: rest =>
      if "__INLINECODE_".toList.isPrefixOf s then
        let r := s.drop 13
        let d := r.takeWhile isDigitCh
        let r2 := r.drop d.length
        if !d.isEmpty && "__".toList.isPrefixOf r2 then
          if natVal d < codes.length then
            "<code class=\"inline-code\">".toList ++ escapeHtmlL (codes.getD (natVal d) []) ++
              "</code>".toList ++ scanICPh codes fuel (r2.drop 2)
          else
            ("__INLINECODE_".toList ++ d ++ "__".toList) ++ scanICPh codes fuel (r2.drop 2)
        else c :: scanICPh codes fuel rest
      else c :: scanICPh codes fuel rest

/-- The bold/italic/strikethrough/link/image stages of
`parseInlineMarkdown`, run after the placeholder pass. -/
def inlineRest (h0 : List Char) : List Char :=
  let h := scanBold (h0.length + 1) h0
  let h := scanItStar (h.length + 1) false h
  let h := scanItUnd (h.length + 1) false h
  let h := scanStrike (h.length + 1) h
  let h := scanLink (h.length + 1) h
  scanImg (h.length + 1) h

/-- `parseInlineMarkdown(text, inlineCodes)` from script.js. -/
def parseInlineMarkdownL (text : List Char) (codes : List (List Char)) : List Char :=
  if text.isEmpty then []
  else inlineRest (scanICPh codes (text.length + 1) text)

def parseInlineMarkdown (text : String) (codes : List String) : String :=
  (parseInlineMarkdownL text.toList (codes.map String.toList)).asString

/-- One rendered cell of `parseTable`. -/
def cellHtml (tag : List Char) (aligns : List (List Char)) (idx : Nat)
    (cell : List Char) (codes : List (List Char)) : List Char :=
  let align := aligns.getD idx "left".toList
  "<".toList ++ tag ++ " style=\"text-align: ".toList ++ align ++ "\">".toList ++
    parseInlineMarkdownL (escapeHtmlL (trimWs cell)) codes ++ "</".toList ++ tag ++ ">".toList

def rowHtml (tag : List Char) (aligns : List (List Char)) (row : List Char)
    (codes : List (List Char)) : List Char :=
  "<tr>".toList ++
    ((rowCells row).enum.map (fun p => cellHtml tag aligns p.1 p.2 codes)).flatten ++
    "</tr>".toList

/-- `parseTable(lines, inlineCodes)` from script.js. -/
def parseTableL (lines : List (List Char)) (codes : List (List Char)) : List Char :=
  if lines.length < 2 then []
  else
    match lines.findIdx? (fun l => isSepLine (trimWs l)) with
    | none => List.intercalate ['\n'] lines
    | some sepIdx =>
      let sepCells := ((lines.getD sepIdx []).splitOn '|').filter
        (fun c => !(trimWs c).isEmpty)
      let aligns := sepCells.map alignOf
      let headerRows := lines.take sepIdx
      let bodyRows := lines.drop (sepIdx + 1)
      "<div class=\"table-wrapper\"><table>".toList ++
        (if headerRows.length > 0 then
          "<thead>".toList ++
            (headerRows.map (fun r => rowHtml "th".toList aligns r codes)).flatten ++
            "</thead>".toList
         else []) ++
        (if bodyRows.length > 0 then
          "<tbody>".toList ++
            ((bodyRows.filter (fun r => !(trimWs r).isEmpty)).map
              (fun r => rowHtml "td".toList aligns r codes)).flatten ++
            "</tbody>".toList
         else []) ++
        "</table></div>".toList

def parseTable (lines : List String) (codes : List String) : String :=
  (parseTableL (lines.map String.toList) (codes.map String.toList)).asString

/-- STEP 6: restore `__INLINECODE_i__` sentinels (string replacement, so
`GetSubstitution` applies to the escaped code). -/
def restoreICGo : Nat → List (List Char) → List Char → List Char
  | _, [], h => h
  | i, c :: cs, h =>
    restoreICGo (i + 1) cs
      (replaceDollar h (phIC i)
        ("<code class=\"inline-code\">".toList ++ escapeHtmlL c ++ "</code>".toList))

/-- STEP 6: restore `__TABLE_i__` sentinels via `parseTable`. -/
def restoreTBGo (codes : List (List Char)) :
    Nat → List (List (List Char)) → List Char → List Char
  | _, [], h => h
  | i, t :: ts, h =>
    restoreTBGo codes (i + 1) ts (replaceDollar h (phTB i) (parseTableL t codes))

/-- the `codeHtml` template literal of STEP 6 (exact text from script.js). -/
def codeHtmlOf (b : CodeBlock) : List Char :=
  let langDisplay := if b.language = "plaintext".toList then "text".toList else b.language
  "\n      <div class=\"code-block-wrapper\">\n        <div class=\"code-header\">\n          <span class=\"code-language\">".toList ++
  escapeHtmlL langDisplay ++
  "</span>\n          <button class=\"copy-btn\" onclick=\"copyCode(this)\" title=\"Copy code\">\n            <svg width=\"16\" height=\"16\" viewBox=\"0 0 24 24\" fill=\"none\" stroke=\"currentColor\" stroke-width=\"2\">\n              <rect x=\"9\" y=\"9\" width=\"13\" height=\"13\" rx=\"2\" ry=\"2\"></rect>\n              <path d=\"M5 15H4a2 2 0 0 1-2-2V4a2 2 0 0 1 2-2h9a2 2 0 0 1 2 2v1\"></path>\n            </svg>\n            <span>Copy</span>\n          </button>\n        </div>\n        <pre class=\"code-block\"><code class=\"".toList ++
  "language-".toList ++ b.language ++ "\">".toList ++ escapeHtmlL b.code ++
  "</code></pre>\n      </div>".toList

/-- STEP 6: restore `__CODEBLOCK_i__` sentinels. -/
def restoreCBGo : Nat → List CodeBlock → List Char → List Char
  | _, [], h => h
  | i, b :: bs, h =>
    restoreCBGo (i + 1) bs (replaceDollar h (phCB i) (codeHtmlOf b))

/-- The tag alternation `div|table|ul|ol|blockquote|h[1-6]|hr|pre` of the
first `<br>` cleanup (alternatives tried left to right). -/
def matchTag1 (s : List Char) : Option (List Char) :=
  if "div".toList.isPrefixOf s then some "div".toList
  else if "table".toList.isPrefixOf s then some "table".toList
  else if "ul".toList.isPrefixOf s then some "ul".toList
  else if "ol".toList.isPrefixOf s then some "ol".toList
  else if "blockquote".toList.isPrefixOf s then some "blockquote".toList
  else
    match s with
    | 'h' :: d :: _ =>
      if '1' ≤ d && d ≤ '6' then some ['h', d]
      else if d = 'r' then some "hr".toList
      else none
    | _ =>
      if "pre".toList.isPrefixOf s then some "pre".toList else none

/-- Same alternation without `hr`, for the second `<br>` cleanup. -/
def matchTag2 (s : List Char) : Option (List Char) :=
  if "div".toList.isPrefixOf s then some "div".toList
  else if "table".toList.isPrefixOf s then some "table".toList
  else if "ul".toList.isPrefixOf s then some "ul".toList
  else if "ol".toList.isPrefixOf s then some "ol".toList
  else if "blockquote".toList.isPrefixOf s then some "blockquote".toList
  else
    match s with
    | 'h' :: d :: _ => if '1' ≤ d && d ≤ '6' then some ['h', d] else none
    | _ =>
      if "pre".toList.isPrefixOf s then some "pre".toList else none

/-- Cleanup `<br>\n?<(div|table|ul|ol|blockquote|h[1-6]|hr|pre)` → `<$1`. -/
def scanBrBefore : Nat → List Char → List Char
  | 0, s => s
  | fuel + 1, s =>
    match s with
    | [] => []
    | c :: rest =>
      if "<br>".toList.isPrefixOf s then
        let r := s.drop 4
        let r2 := if r.headD ' ' = '\n' then r.drop 1 else r
        if r2.headD ' ' = '<' then
          match matchTag1 (r2.drop 1) with
          | some tag => '<' :: tag ++ scanBrBefore fuel ((r2.drop 1).drop tag.length)
          | none => c :: scanBrBefore fuel rest
        else c :: scanBrBefore fuel rest
      else c :: scanBrBefore fuel rest

/-- Cleanup `<\/(div|table|ul|ol|blockquote|h[1-6]|pre)><br>` → `</$1>`. -/
def scanBrAfter : Nat → List Char → List Char
  | 0, s => s
  | fuel + 1, s =>
    match s with
    | [] => []
    | c :: rest =>
      if "</".toList.isPrefixOf s then
        match matchTag2 (s.drop 2) with
        | some tag =>
          let r := s.drop (2 + tag.length)
          if "><br>".toList.isPrefixOf r then
            "</".toList ++ tag ++ ['>'] ++ scanBrAfter fuel (r.drop 5)
          else c :: scanBrAfter fuel rest
        | none => c :: scanBrAfter fuel rest
      else c :: scanBrAfter fuel rest

/-- the three call-local side tables of one `parseMarkdown` invocation. -/
structure RenderState where
  codeBlocks : List CodeBlock
  inlineCodes : List (List Char)
  tables : List (List (List Char))
deriving DecidableEq

/-- `parseMarkdown(text)` from script.js, also returning the side tables it
built (they are created empty at the start of every call: `const
codeBlocks = []` etc.). -/
def parseMarkdownFull (text : List Char) : List Char × RenderState :=
  if text.isEmpty then ([], ⟨[], [], []⟩)
  else
    let p1 := scanFence1a (text.length + 1) text []
    let p2 := scanFence1b (p1.1.length + 1) p1.1 p1.2
    let p3 := scanInline1 (p2.1.length + 1) false p2.1 []
    let p4 := scanTables (p3.1.length + 1) true p3.1 []
    let p5 := scanInline2 (p4.1.length + 1) p4.1 p3.2
    let codeBlocks := p2.2
    let inlineCodes := p5.2
    let tables := p4.2
    let h := escapeHtmlL p5.1
    let h := scanHeader 6 "<h6>".toList "</h6>".toList (h.length + 1) true h
    let h := scanHeader 5 "<h5>".toList "</h5>".toList (h.length + 1) true h
    let h := scanHeader 4 "<h4>".toList "</h4>".toList (h.length + 1) true h
    let h := scanHeader 3 "<h3>".toList "</h3>".toList (h.length + 1) true h
    let h := scanHeader 2 "<h2>".toList "</h2>".toList (h.length + 1) true h
    let h := scanHeader 1 "<h1>".toList "</h1>".toList (h.length + 1) true h
    let h := scanHr (h.length + 1) true h
    let h := scanBq (h.length + 1) true h
    let h := scanUl (h.length + 1) true h
    let h := scanOl (h.length + 1) true h
    let h := scanLiWrap (h.length + 1) h
    let h := scanBold (h.length + 1) h
    let h := scanItStar (h.length + 1) false h
    let h := scanItUnd (h.length + 1) false h
    let h := scanStrike (h.length + 1) h
    let h := scanLink (h.length + 1) h
    let h := scanImg (h.length + 1) h
    let h := replaceLit "\n\n".toList "</p><p>".toList (h.length + 1) h
    let h := replaceLit "\n".toList "<br>".toList (h.length + 1) h
    let h := "<p>".toList ++ h ++ "</p>".toList
    let h := scanPP (h.length + 1) h
    let h := scanEmptyP (h.length + 1) h
    let h := restoreICGo 0 inlineCodes h
    let h := restoreTBGo inlineCodes 0 tables h
    let h := restoreCBGo 0 codeBlocks h
    let h := scanBrBefore (h.length + 1) h
    let h := scanBrAfter (h.length + 1) h
    let h := replaceLit "<br></p>".toList "</p>".toList (h.length + 1) h
    let h := replaceLit "<p><br>".toList "<p>".toList (h.length + 1) h
    (h, ⟨codeBlocks, inlineCodes, tables⟩)

def parseMarkdownL (text : List Char) : List Char := (parseMarkdownFull text).1

def parseMarkdown (s : String) : String := (parseMarkdownL s.toList).asString

/-- One invocation of the renderer as seen by a caller holding (conceptual)
state from earlier invocations: the function body initializes its own fresh
side tables, so the incoming state is unused. -/
def parseMarkdownCall (_prev : RenderState) (text : List Char) :
    List Char × RenderState :=
  parseMarkdownFull text

/-- A sequence of render calls threading the side-table state through. -/
def renderSeq : RenderState → List (List Char) → List (List Char)
  | _, [] => []
  | st, t :: ts =>
    let r := parseMarkdownCall st t
    r.1 :: renderSeq r.2 ts

/-- String-level substring test, for stating properties of outputs. -/
def containsStr (pat s : String) : Bool := containsSub pat.toList s.toList

/-- String-level substring count. -/
def countStr (pat s : String) : Nat := countSub pat.toList s.toList

/-- The expected rendered form of one code block, used to state expected
outputs concisely: the `codeHtml` template text with the language label,
the code-element class and the escaped body filled in. -/
def expectBlock (display cls codeEsc : String) : String :=
  "\n      <div class=\"code-block-wrapper\">\n        <div class=\"code-header\">\n          <span class=\"code-language\">" ++
  display ++
  "</span>\n          <button class=\"copy-btn\" onclick=\"copyCode(this)\" title=\"Copy code\">\n            <svg width=\"16\" height=\"16\" viewBox=\"0 0 24 24\" fill=\"none\" stroke=\"currentColor\" stroke-width=\"2\">\n              <rect x=\"9\" y=\"9\" width=\"13\" height=\"13\" rx=\"2\" ry=\"2\"></rect>\n              <path d=\"M5 15H4a2 2 0 0 1-2-2V4a2 2 0 0 1 2-2h9a2 2 0 0 1 2 2v1\"></path>\n            </svg>\n            <span>Copy</span>\n          </button>\n        </div>\n        <pre class=\"code-block\"><code class=\"" ++
  cls ++ "\">" ++ codeEsc ++ "</code></pre>\n      </div>"

theorem natVal_append_single (xs : List Char) (c : Char) :
    natVal (xs ++ [c]) = natVal xs * 10 + (c.toNat - 48) := by
  simp [natVal, List.foldl_append]

theorem digitChar_toNat {n : Nat} (h : n < 10) : (Nat.digitChar n).toNat = 48 + n := by
  interval_cases n <;> rfl

theorem natCharsGo_val : ∀ (fuel n : Nat), n < fuel → natVal (natCharsGo fuel n) = n := by
  intro fuel
  induction fuel with
  | zero => intro n h; omega
  | succ f ih =>
    intro n h
    by_cases h10 : n < 10
    · simp only [natCharsGo, if_pos h10]
      have : natVal [Nat.digitChar n] = (Nat.digitChar n).toNat - 48 := by
        simp [natVal]
      rw [this, digitChar_toNat h10]
      omega
    · simp only [natCharsGo, if_neg h10]
      rw [natVal_append_single]
      have hdiv : n / 10 < n := Nat.div_lt_self (by omega) (by omega)
      rw [ih (n / 10) (by omega)]
      rw [digitChar_toNat (Nat.mod_lt n (by omega))]
      omega

theorem natChars_inj {a b : Nat} (h : natChars a = natChars b) : a = b := by
  have h1 : natVal (natChars a) = a := natCharsGo_val (a + 1) a (Nat.lt_succ_self a)
  have h2 : natVal (natChars b) = b := natCharsGo_val (b + 1) b (Nat.lt_succ_self b)
  rw [h] at h1
  exact h1.symm.trans h2

theorem phCB_inj {i j : Nat} (h : phCB i = phCB j) : i = j := by
  have h0 : "__CODEBLOCK_".toList ++ (natChars i ++ "__".toList) =
      "__CODEBLOCK_".toList ++ (natChars j ++ "__".toList) := h
  exact natChars_inj (List.append_cancel_right (List.append_cancel_left h0))

theorem phIC_inj {i j : Nat} (h : phIC i = phIC j) : i = j := by
  have h0 : "__INLINECODE_".toList ++ (natChars i ++ "__".toList) =
      "__INLINECODE_".toList ++ (natChars j ++ "__".toList) := h
  exact natChars_inj (List.append_cancel_right (List.append_cancel_left h0))

theorem phTB_inj {i j : Nat} (h : phTB i = phTB j) : i = j := by
  have h0 : "__TABLE_".toList ++ (natChars i ++ "__".toList) =
      "__TABLE_".toList ++ (natChars j ++ "__".toList) := h
  exact natChars_inj (List.append_cancel_right (List.append_cancel_left h0))

theorem phCB_ne_phIC (i j : Nat) : phCB i ≠ phIC j := by
  intro h
  have h1 : (phCB i).take 3 = ['_', '_', 'C'] := rfl
  have h2 : (phIC j).take 3 = ['_', '_', 'I'] := rfl
  rw [h] at h1
  exact absurd (h1.symm.trans h2) (by decide)

theorem phCB_ne_phTB (i j : Nat) : phCB i ≠ phTB j := by
  intro h
  have h1 : (phCB i).take 3 = ['_', '_', 'C'] := rfl
  have h2 : (phTB j).take 3 = ['_', '_', 'T'] := rfl
  rw [h] at h1
  exact absurd (h1.symm.trans h2) (by decide)

theorem phIC_ne_phTB (i j : Nat) : phIC i ≠ phTB j := by
  intro h
  have h1 : (phIC i).take 3 = ['_', '_', 'I'] := rfl
  have h2 : (phTB j).take 3 = ['_', '_', 'T'] := rfl
  rw [h] at h1
  exact absurd (h1.symm.trans h2) (by decide)

theorem findTicks3_split : ∀ (l : List Char) (j : Nat), findTicks3 l = some j →
    ∃ pre suf, pre.length = j ∧ l = pre ++ ticks3 ++ suf := by
  intro l
  induction l with
  | nil => intro j h; simp [findTicks3] at h
  | cons c tail ih =>
    intro j h
    match tail with
    | [] => simp [findTicks3] at h
    | [c2] => simp [findTicks3] at h
    | c2 :: c3 :: t3 =>
      rw [findTicks3] at h
      by_cases hb : c = bt ∧ c2 = bt ∧ c3 = bt
      · rw [if_pos (by simp [hb.1, hb.2.1, hb.2.2])] at h
        obtain ⟨rfl⟩ : j = 0 := by simpa using h.symm
        exact ⟨[], t3, rfl, by simp [ticks3, hb.1, hb.2.1, hb.2.2]⟩
      · rw [if_neg (by simpa using fun h1 h2 h3 => hb ⟨h1, h2, h3⟩)] at h
        match hj : findTicks3 (c2 :: c3 :: t3) with
        | none => rw [hj] at h; simp at h
        | some j' =>
          rw [hj] at h
          simp at h
          obtain ⟨pre, suf, hl, heq⟩ := ih j' hj
          exact ⟨c :: pre, suf, by simp [hl, ← h], by simp [heq]⟩

theorem drop_length_takeWhile (p : Char → Bool) : ∀ (l : List Char),
    l.drop (l.takeWhile p).length = l.dropWhile p := by
  intro l
  induction l with
  | nil => rfl
  | cons c t ih =>
    by_cases h : p c <;> simp [List.takeWhile_cons, List.dropWhile_cons, h, ih]

theorem take_append_exact (A B : List Char) (k : Nat) :
    (A ++ B).take (A.length + k) = A ++ B.take k := by
  rw [List.take_append_eq_append_take]
  congr 1
  · exact List.take_of_length_le (by omega)
  · congr 1
    omega

/-- Every successful STEP-1b match ends with a literal closing fence: the
consumed text is some prefix followed by three backticks. -/
theorem tryFence1b_closing (s : List Char) (n : Nat) (code : List Char)
    (h : tryFence1b s = some (n, code)) : ∃ pre, s.take n = pre ++ ticks3 := by
  unfold tryFence1b at h
  split at h
  case isFalse => exact absurd h (by simp)
  case isTrue hp =>
    obtain ⟨rest0, hrest⟩ := (List.isPrefixOf_iff_prefix.mp hp)
    subst hrest
    have hd3 : (ticks3 ++ rest0).drop 3 = rest0 := List.drop_left ticks3 rest0
    rw [hd3] at h
    simp only [drop_length_takeWhile] at h
    split at h
    next => exact absurd h (by simp)
    next j hfind =>
      simp only [Option.some.injEq, Prod.mk.injEq] at h
      obtain ⟨hn, _⟩ := h
      obtain ⟨pre1, suf1, hl1, he1⟩ := findTicks3_split _ j hfind
      have hsplit0 : rest0 = rest0.takeWhile isWs ++ rest0.dropWhile isWs :=
        (List.takeWhile_append_dropWhile isWs rest0).symm
      have ht3 : ticks3.length = 3 := rfl
      refine ⟨ticks3 ++ rest0.takeWhile isWs ++ pre1, ?_⟩
      rw [show n = ticks3.length + ((rest0.takeWhile isWs).length + (j + 3)) by omega]
      rw [take_append_exact]
      nth_rewrite 2 [hsplit0]
      rw [take_append_exact]
      rw [show rest0.dropWhile isWs = pre1 ++ (ticks3 ++ suf1) by simpa [List.append_assoc] using he1]
      rw [show j + 3 = pre1.length + 3 by omega]
      rw [take_append_exact]
      rw [show (ticks3 ++ suf1).take 3 = ticks3 from List.take_left ticks3 suf1]
      simp [List.append_assoc]

/-- Every successful STEP-1a match ends with a literal closing fence: the
consumed text is some prefix followed by three backticks. -/
theorem tryFence1a_closing (s : List Char) (n : Nat) (lang code : List Char)
    (h : tryFence1a s = some (n, lang, code)) : ∃ pre, s.take n = pre ++ ticks3 := by
  unfold tryFence1a at h
  split at h
  case isFalse => exact absurd h (by simp)
  case isTrue hp =>
    obtain ⟨rest0, hrest⟩ := List.isPrefixOf_iff_prefix.mp hp
    subst hrest
    have hd3 : (ticks3 ++ rest0).drop 3 = rest0 := List.drop_left ticks3 rest0
    rw [hd3] at h
    simp only [drop_length_takeWhile] at h
    split at h
    next => exact absurd h (by simp)
    next hlang =>
      split at h
      next => exact absurd h (by simp)
      next hwt =>
        split at h
        next => exact absurd h (by simp)
        next j hfind =>
          simp only [Option.some.injEq, Prod.mk.injEq] at h
          obtain ⟨hn, -, -⟩ := h
          set L := rest0.takeWhile isLangChar with hLdef
          set R1 := rest0.dropWhile isLangChar with hR1def
          set W := R1.takeWhile isWs with hWdef
          set R2 := R1.dropWhile isWs with hR2def
          set T := (W.reverse.takeWhile (fun c => c ≠ '\n')).reverse with hTdef
          set W1 := (W.reverse.dropWhile (fun c => c ≠ '\n')).reverse with hW1def
          obtain ⟨pre1, suf1, hl1, he1⟩ := findTicks3_split _ j hfind
          have ht3 : ticks3.length = 3 := rfl
          have hw : W1 ++ T = W := by
            rw [hW1def, hTdef, ← List.reverse_append, List.takeWhile_append_dropWhile,
              List.reverse_reverse]
          have hlen : W1.length + T.length = W.length := by
            have := congrArg List.length hw
            simpa using this
          have hsplit1 : rest0 = L ++ R1 :=
            (List.takeWhile_append_dropWhile isLangChar rest0).symm
          have hsplit2 : R1 = W ++ R2 := (List.takeWhile_append_dropWhile isWs R1).symm
          refine ⟨ticks3 ++ L ++ W1 ++ pre1, ?_⟩
          rw [show n = ticks3.length + (L.length + (W1.length + (j + 3))) by
            rw [ht3]; omega]
          rw [take_append_exact]
          rw [hsplit1]
          rw [take_append_exact]
          rw [show R1 = W1 ++ (T ++ R2) by
            rw [hsplit2, ← hw, List.append_assoc]]
          rw [take_append_exact]
          rw [show T ++ R2 = pre1 ++ (ticks3 ++ suf1) by rw [he1, List.append_assoc]]
          rw [show j + 3 = pre1.length + 3 by omega]
          rw [take_append_exact]
          rw [show (ticks3 ++ suf1).take 3 = ticks3 from List.take_left ticks3 suf1]
          simp [List.append_assoc]

/-- C2: parseMarkdown is a total function of its input string (the
embedding is a total Lean function, mirroring the straight-line
JavaScript body); the empty string returns the empty string, and
malformed Markdown — an unterminated fence, a stray piped line — falls
back to literal escaped text rather than failing. -/
theorem c2_total_empty :
    parseMarkdown "" = "" ∧
    parseMarkdown "```python\nfoo" = "<p>```python<br>foo</p>" ∧
    parseMarkdown "| just | some | text |" = "<p>| just | some | text |</p>" := by
  refine ⟨rfl, rfl, rfl⟩

theorem renderSeq_eq_map :
    ∀ (st : RenderState) (ts : List (List Char)),
      renderSeq st ts = ts.map parseMarkdownL := by
  intro st ts
  induction ts generalizing st with
  | nil => rfl
  | cons t ts ih =>
    simp only [renderSeq, List.map_cons]
    rw [ih (parseMarkdownCall st t).2]
    rfl

/-- C3: parseMarkdown is deterministic with no state shared between
invocations: the side tables are created empty inside every call
(`const codeBlocks = []` …), so the output is a function solely of the
input text — two calls from arbitrary (distinct) prior states agree, a
sequence of two calls on the same text yields the same output twice,
and any sequence of calls renders each text independently of the
states the earlier calls left behind. -/
theorem c3_deterministic_no_shared_state (st1 st2 : RenderState) (t : List Char)
    (ts : List (List Char)) :
    (parseMarkdownCall st1 t).1 = (parseMarkdownCall st2 t).1 ∧
    renderSeq st1 [t, t] = [parseMarkdownL t, parseMarkdownL t] ∧
    renderSeq st1 ts = ts.map parseMarkdownL ∧
    renderSeq st1 ts = renderSeq st2 ts :=
  ⟨rfl, rfl, renderSeq_eq_map st1 ts,
    (renderSeq_eq_map st1 ts).trans (renderSeq_eq_map st2 ts).symm⟩

/-- C4: evaluating parseMarkdown at `"```frobnicate\nx\n```"` (language
tag not in the allow-list).  Contrary to the claim (and to STEP 1a's own
comment "don't wrap as a code block - return original text"), STEP 1b's
regex `(\x60\x60\x60)\s*\n?([\s\S]*?)\n?(\x60\x60\x60)` also matches a fence whose
language tag was rejected, so the output is a plaintext code-block
element with body `frobnicate\nx` and no literal backticks remain. -/
theorem c4_unknown_language_codeblock_eval :
    parseMarkdown "```frobnicate\nx\n```" =
      "<p>" ++ expectBlock "text" "language-plaintext" "frobnicate\nx" ++ "</p>" ∧
    containsStr
      "<pre class=\"code-block\"><code class=\"language-plaintext\">frobnicate\nx</code></pre>"
      ("<p>" ++ expectBlock "text" "language-plaintext" "frobnicate\nx" ++ "</p>") = true ∧
    containsStr "```"
      ("<p>" ++ expectBlock "text" "language-plaintext" "frobnicate\nx" ++ "</p>") = false := by
  refine ⟨rfl, rfl, rfl⟩

/-- C5 (counterexample): for `"**bold *and italic* text**"` the output
contains no strong-emphasis element at all: the bold rule
`\*\*([^*]+?)\*\*` cannot match across the inner asterisks. -/
theorem c5_nesting_counterexample :
    containsStr "<strong" (parseMarkdown "**bold *and italic* text**") = false := by
  exact rfl

/-- C5 (amended): `"**bold *and italic* text**"` yields an emphasis
element around "and italic", but the `**` markers stay literal and no
strong element is produced. -/
theorem c5_nesting_amended :
    parseMarkdown "**bold *and italic* text**" =
      "<p>**bold <em>and italic</em> text**</p>" := by
  exact rfl

/-- C6 (counterexample): an input consisting solely of digit-dot list
lines yields an unordered-list container, not `<ol>`: the wrapper's
`/\d+\.\s/` test runs on the already-converted run, whose `1. `
prefixes were consumed by the list-item rule. -/
theorem c6_list_wrap_counterexample :
    parseMarkdown "1. a\n2. b" = "<p><ul><li>a</li><br><li>b</li></ul></p>" ∧
    containsStr "<ol>" "<p><ul><li>a</li><br><li>b</li></ul></p>" = false ∧
    containsStr "<ul>" "<p><ul><li>a</li><br><li>b</li></ul></p>" = true := by
  refine ⟨rfl, rfl, rfl⟩

/-- C6 (amended): a maximal run of list items is wrapped in `<ol>` iff
the *converted* run text (the item contents) still matches
`\d+\.\s`, else in `<ul>`; the original digit-dot prefixes are consumed
by the item conversion, so digit-dot source lines produce `<ul>`, while
a dash item whose content contains "2. " produces `<ol>`. -/
theorem c6_list_wrap_amended :
    parseMarkdown "1. a\n2. b" = "<p><ul><li>a</li><br><li>b</li></ul></p>" ∧
    parseMarkdown "- see 2. above" = "<p><ol><li>see 2. above</li></ol></p>" := by
  refine ⟨rfl, rfl⟩

/-- C7 (counterexample): user-authored text of sentinel shape collides
with generated sentinels: in `"__CODEBLOCK_0__\n```python\nhi\n```"` the
input has exactly one fence, but the user's literal `__CODEBLOCK_0__` is
also replaced at restoration, so the rendered code block appears twice
and the user's text is gone. -/
theorem c7_sentinel_counterexample :
    countStr "```python" "__CODEBLOCK_0__\n```python\nhi\n```" = 1 ∧
    countStr "<div class=\"code-block-wrapper\">"
      (parseMarkdown "__CODEBLOCK_0__\n```python\nhi\n```") = 2 ∧
    containsStr "__CODEBLOCK_0__"
      (parseMarkdown "__CODEBLOCK_0__\n```python\nhi\n```") = false := by
  refine ⟨rfl, rfl, rfl⟩

/-- C7 (amended): the sentinels generated within one render call are
pairwise distinct, within each kind (`__CODEBLOCK_i__`, `__INLINECODE_i__`,
`__TABLE_i__`) and across kinds — but they are plain text that survives
escaping, so a user-authored occurrence of the same shape *does* collide
and is replaced by the region's rendered form at restoration. -/
theorem c7_sentinel_amended (i j : Nat) (h : i ≠ j) :
    phCB i ≠ phCB j ∧ phIC i ≠ phIC j ∧ phTB i ≠ phTB j ∧
    phCB i ≠ phIC j ∧ phCB i ≠ phTB j ∧ phIC i ≠ phTB j :=
  ⟨fun e => h (phCB_inj e), fun e => h (phIC_inj e), fun e => h (phTB_inj e),
    phCB_ne_phIC i j, phCB_ne_phTB i j, phIC_ne_phTB i j⟩

theorem c7_sentinel_amended_witness :
    (0 : Nat) ≠ 1 ∧
    (phCB 0 ≠ phCB 1 ∧ phIC 0 ≠ phIC 1 ∧ phTB 0 ≠ phTB 1 ∧
      phCB 0 ≠ phIC 1 ∧ phCB 0 ≠ phTB 1 ∧ phIC 0 ≠ phTB 1) :=
  ⟨by decide, c7_sentinel_amended 0 1 (by decide)⟩

/-- C8: the three-line table input renders to a table fragment with
exactly two header cells "A" and "B", both left-aligned, and one body
row with cells "1" and "2". -/
theorem c8_table_roundtrip :
    parseMarkdown "| A | B |\n|---|---|\n| 1 | 2 |" =
      "<p><div class=\"table-wrapper\"><table><thead><tr><th style=\"text-align: left\">A</th><th style=\"text-align: left\">B</th></tr></thead><tbody><tr><td style=\"text-align: left\">1</td><td style=\"text-align: left\">2</td></tr></tbody></table></div></p>" ∧
    countStr "<th "
      "<p><div class=\"table-wrapper\"><table><thead><tr><th style=\"text-align: left\">A</th><th style=\"text-align: left\">B</th></tr></thead><tbody><tr><td style=\"text-align: left\">1</td><td style=\"text-align: left\">2</td></tr></tbody></table></div></p>" = 2 ∧
    countStr "<td "
      "<p><div class=\"table-wrapper\"><table><thead><tr><th style=\"text-align: left\">A</th><th style=\"text-align: left\">B</th></tr></thead><tbody><tr><td style=\"text-align: left\">1</td><td style=\"text-align: left\">2</td></tr></tbody></table></div></p>" = 2 ∧
    countStr "text-align: left"
      "<p><div class=\"table-wrapper\"><table><thead><tr><th style=\"text-align: left\">A</th><th style=\"text-align: left\">B</th></tr></thead><tbody><tr><td style=\"text-align: left\">1</td><td style=\"text-align: left\">2</td></tr></tbody></table></div></p>" = 4 := by
  refine ⟨rfl, rfl, rfl, rfl⟩

/-- C9 (counterexample): in `"```python\nA\n```python\nB"` the second
`\x60\x60\x60` opens a fence (`"```python\nB"`) that never closes, yet its
backticks do not stay literal: they are consumed as the closing fence of
the first block, so the output contains a code-block element and no
backtick at all. -/
theorem c9_malformed_fence_counterexample :
    countStr "```python" "```python\nA\n```python\nB" = 2 ∧
    parseMarkdown "```python\nA\n```python\nB" =
      "<p>" ++ expectBlock "python" "language-python" "A" ++ "python<br>B</p>" ∧
    containsStr "`"
      ("<p>" ++ expectBlock "python" "language-python" "A" ++ "python<br>B</p>") = false ∧
    containsStr "<pre class=\"code-block\">"
      ("<p>" ++ expectBlock "python" "language-python" "A" ++ "python<br>B</p>") = true := by
  refine ⟨rfl, rfl, rfl, rfl⟩

/-- C9 (amended): neither fence matcher ever matches text lacking a closing
fence — whenever `tryFence1a` (STEP 1a, with language tag) or `tryFence1b`
(STEP 1b, catch-all) succeeds, the text it consumes ends in a literal
`\x60\x60\x60` — so an unterminated opening fence is never itself extracted
as a code block and the render does not fail; what its backticks become
depends on the rest of the input: when they are the only backticks
(`"```python\nfoo"`, `"```\nfoo"`) the fence and the following text stay
literal escaped text and no code-block element (not even a partial one) is
produced; when a later lone backtick follows (`"```\nfoo`"`) still no
code-block element is produced, but the STEP-3 inline-code pass pairs the
fence's third backtick with the lone backtick, leaving two literal
backticks and an inline-code element; and (per the counterexample) an
earlier fence consumes the unterminated fence's backticks as its closing
delimiter. -/
theorem c9_malformed_fence_amended :
    (∀ (s : List Char) (n : Nat) (lang code : List Char),
        tryFence1a s = some (n, lang, code) → ∃ pre, s.take n = pre ++ ticks3) ∧
    (∀ (s : List Char) (n : Nat) (code : List Char),
        tryFence1b s = some (n, code) → ∃ pre, s.take n = pre ++ ticks3) ∧
    (parseMarkdown "```python\nfoo" = "<p>```python<br>foo</p>" ∧
      containsStr "<pre" "<p>```python<br>foo</p>" = false) ∧
    (parseMarkdown "```\nfoo" = "<p>```<br>foo</p>" ∧
      containsStr "<pre" "<p>```<br>foo</p>" = false) ∧
    (parseMarkdown "```\nfoo`" = "<p>``<code class=\"inline-code\">\nfoo</code></p>" ∧
      containsStr "<pre" "<p>``<code class=\"inline-code\">\nfoo</code></p>" = false) := by
  refine ⟨tryFence1a_closing, tryFence1b_closing, ⟨rfl, rfl⟩, ⟨rfl, rfl⟩, ⟨rfl, rfl⟩⟩

/-- Witness for the matcher conjuncts of the C9 amended theorem: applied at
concrete successful matches of both fence regexes. -/
theorem c9_malformed_fence_amended_witness :
    tryFence1a "```python\nx\n```".toList = some (15, "python".toList, "x".toList) ∧
    (∃ pre, "```python\nx\n```".toList.take 15 = pre ++ ticks3) ∧
    tryFence1b "```\nx\n```".toList = some (9, "x".toList) ∧
    (∃ pre, "```\nx\n```".toList.take 9 = pre ++ ticks3) :=
  ⟨by decide,
   c9_malformed_fence_amended.1 "```python\nx\n```".toList 15 "python".toList "x".toList
     (by decide),
   by decide,
   c9_malformed_fence_amended.2.1 "```\nx\n```".toList 9 "x".toList (by decide)⟩

/-- C10: in parseInlineMarkdown, an `__INLINECODE_N__` placeholder whose
index is outside the bounds of the supplied inline-code table is left
unchanged in the output (the callback returns the matched text). -/
theorem c10_oob_placeholder (codes : List String) (h : codes.length ≤ 5) :
    parseInlineMarkdown "__INLINECODE_5__" codes = "__INLINECODE_5__" := by
  rcases codes with _ | ⟨a, _ | ⟨b, _ | ⟨c, _ | ⟨d, _ | ⟨e, rest⟩⟩⟩⟩⟩
  · rfl
  · have h1 : scanICPh (List.map String.toList [a])
        ("__INLINECODE_5__".toList.length + 1) "__INLINECODE_5__".toList =
        "__INLINECODE_5__".toList := rfl
    unfold parseInlineMarkdown parseInlineMarkdownL
    rw [h1]
    rfl
  · have h1 : scanICPh (List.map String.toList [a, b])
        ("__INLINECODE_5__".toList.length + 1) "__INLINECODE_5__".toList =
        "__INLINECODE_5__".toList := rfl
    unfold parseInlineMarkdown parseInlineMarkdownL
    rw [h1]
    rfl
  · have h1 : scanICPh (List.map String.toList [a, b, c])
        ("__INLINECODE_5__".toList.length + 1) "__INLINECODE_5__".toList =
        "__INLINECODE_5__".toList := rfl
    unfold parseInlineMarkdown parseInlineMarkdownL
    rw [h1]
    rfl
  · have h1 : scanICPh (List.map String.toList [a, b, c, d])
        ("__INLINECODE_5__".toList.length + 1) "__INLINECODE_5__".toList =
        "__INLINECODE_5__".toList := rfl
    unfold parseInlineMarkdown parseInlineMarkdownL
    rw [h1]
    rfl
  · rcases rest with _ | ⟨f, rest2⟩
    · have h1 : scanICPh (List.map String.toList [a, b, c, d, e])
          ("__INLINECODE_5__".toList.length + 1) "__INLINECODE_5__".toList =
          "__INLINECODE_5__".toList := rfl
      unfold parseInlineMarkdown parseInlineMarkdownL
      rw [h1]
      rfl
    · simp only [List.length_cons] at h
      omega

theorem c10_oob_placeholder_witness :
    List.length (["x"] : List String) ≤ 5 ∧
    parseInlineMarkdown "__INLINECODE_5__" ["x"] = "__INLINECODE_5__" :=
  ⟨by decide, c10_oob_placeholder ["x"] (by decide)⟩

end MdRender
